import Mathlib

/-!
Verification of the bulk-operations query/filter engine of the `n2s` terminal
dashboard (package `internal/ui`, `QueryBuilderView` in `context_view.go`).

The Go code is shallowly embedded:

* `time.Time` and `time.Duration` values are modelled as `Int` nanoseconds
  (`time.Since(t)` becomes `now - t`, `t1.Before t2` becomes `t1 < t2`);
  the wall clock read by `time.Since` is passed explicitly as a `now` argument.
* `uint64` message counts are modelled as `Nat` (the engine only compares
  counts, it never does wrap-around arithmetic on them), `int` consumer counts
  as `Int`.
* Go string comparison (`<` on `Name`) is bytewise lexicographic; it is
  modelled as lexicographic order on the code-point list `String.data`, which
  induces the same order because UTF-8 encoding is order-preserving.
* The external collaborators (NATS client, modal widgets, preset file I/O)
  are modelled as explicit parameters: the snapshot returned by
  `ListStreams`, a per-stream failure oracle for `DeleteStream`/`PurgeStream`,
  and the decoded preset list for `filters.yaml`.
-/

namespace N2S

/-- Stream runtime state, from `models.StreamState` (`internal/models`,
stream model file).  Only the fields read by the query-builder subsystem are
kept (`Messages`, `FirstTime`); the remaining fields
(`Bytes`, `FirstSeq`, `LastSeq`, `LastTime`, `Consumers`, `NumDeleted`) are
never inspected by it. -/
structure StreamState where
  messages : Nat
  firstTime : Int
deriving DecidableEq, Repr

/-- Stream summary, from `models.Stream`.  Only the fields read by the
query-builder subsystem are kept (`Name`, `Consumers`, `State`); `Subjects`,
`Bytes`, `Messages` (the top-level copy) and `Config` are never inspected by
it. -/
structure Stream where
  name : String
  consumers : Int
  state : StreamState
deriving DecidableEq, Repr

/-- Mutable fields of `QueryBuilderView` (`context_view.go`): the eight
filter-criteria strings, the matched preview set, and the sort state.  The
`ui` handle and the tview widgets are rendering-only and not modelled. -/
structure QueryBuilderState where
  namePattern : String
  ageOp : String
  ageValue : String
  ageUnit : String
  consumerOp : String
  consumerValue : String
  messagesOp : String
  messagesValue : String
  matchedStreams : List Stream
  sortColumn : Nat
  sortAscending : Bool
deriving DecidableEq, Repr

/-- Initial state built by `NewQueryBuilderView`. -/
def initialState : QueryBuilderState :=
  { namePattern := "*", ageOp := "any", ageValue := "", ageUnit := "h",
    consumerOp := "any", consumerValue := "", messagesOp := "any",
    messagesValue := "", matchedStreams := [], sortColumn := 0,
    sortAscending := true }

/-! ## Name-pattern matching

`matchesFilter` translates the pattern with
`strings.ReplaceAll(pattern, "*", ".*")`, wraps it in `"^" ... "$"` and runs
`regexp.MatchString` against the stream name.  The regular expression is
modelled for the fragment actually produced by patterns whose characters are
`*`, `.` or regex-literal characters: `*` becomes `.*` (any sequence), `.` is
the regex any-single-character metacharacter, every other modelled character
is a literal.  For such patterns `regexp.MatchString` never returns an error,
so the `err != nil` branch of the Go code cannot fire.  (Go's `.` does not
match a newline; stream names are newline-free, and no claim involves
newlines.) -/

/-- Token of the regular expression obtained from a glob pattern. -/
inductive GlobTok where
  | lit (c : Char)
  | dot
  | dotStar
deriving DecidableEq, Repr

/-- Tokenisation of the translated pattern: `*` was replaced by `.*`, `.` is
the regex metacharacter, anything else in the modelled fragment is literal. -/
def globTokens (p : String) : List GlobTok :=
  p.data.map (fun c =>
    if c = '*' then GlobTok.dotStar else if c = '.' then GlobTok.dot else GlobTok.lit c)

/-- Backtracking step for `.*`: try the continuation on every suffix of the
input. -/
def tryStar (f : List Char → Bool) : List Char → Bool
  | [] => f []
  | x :: xs => f (x :: xs) || tryStar f xs

/-- Anchored (whole-string) matching of the token list against the name,
i.e. `regexp.MatchString ("^" ++ translated ++ "$")`: a literal consumes its
own character, `.` consumes any one character, `.*` consumes any (possibly
empty) prefix. -/
def reMatch : List GlobTok → List Char → Bool
  | [], s => s.isEmpty
  | GlobTok.lit c :: ts, s =>
    match s with
    | [] => false
    | x :: xs => if x = c then reMatch ts xs else false
  | GlobTok.dot :: ts, s =>
    match s with
    | [] => false
    | _ :: xs => reMatch ts xs
  | GlobTok.dotStar :: ts, s => tryStar (reMatch ts) s

/-- Go regex metacharacters (escaped nowhere by the code). -/
def regexMetaChars : List Char := ".*+?()[]\x7b\x7d^$|\\".data

/-- Pattern containing no regex metacharacter at all. -/
def plainPattern (p : String) : Bool := p.data.all (fun c => !(regexMetaChars.contains c))

/-- One `regexp.MatchString ("^" ++ translated ++ "$", name)` call. -/
def nameGlobMatches (pat name : String) : Bool := reMatch (globTokens pat) name.data

/-- Name clause of `matchesFilter` (`context_view.go`): patterns `"*"` and
`""` skip the regex entirely and match; otherwise the anchored regex must
match. -/
def nameClauseOk (pat name : String) : Bool :=
  if pat ≠ "*" ∧ pat ≠ "" then nameGlobMatches pat name else true

/-! ## Numeric value parsing: `fmt.Sscanf(value, "%d", &x)`

The Go code only looks at the returned count `n`: `n = 0` is the unparseable
case.  `Sscanf` runs `scanInt`, which
* skips leading white space per the `fmt` package's own space table
  (U+0009..U+000D, U+0020, U+0085, U+00A0, U+1680, U+2000..U+200A,
  U+2028..U+2029, U+202F, U+205F, U+3000), except that in scanf mode a
  newline is not skipped but raises an `unexpected newline` error (`n = 0`);
* accepts an optional sign followed by a non-empty run of decimal digits
  (no digits after the optional sign is an error, `n = 0`), leaving any
  trailing characters unread (they do not affect `n`);
* hands the signed token to `strconv.ParseInt(tok, 10, 64)`, whose range
  error for values outside the 64-bit signed range is a scan error as well
  (`n = 0`, so an out-of-range digit run is also fail-open).  The scan
  targets are `int` and `int64`; both are 64-bit here (the tool targets
  64-bit platforms), so one range applies. -/

/-- White-space table of the `fmt` scanner (`fmt/scan.go`, `var space`). -/
def fmtSpace (c : Char) : Bool :=
  (decide (0x9 ≤ c.toNat) && decide (c.toNat ≤ 0xd)) || decide (c.toNat = 0x20) ||
  decide (c.toNat = 0x85) || decide (c.toNat = 0xa0) || decide (c.toNat = 0x1680) ||
  (decide (0x2000 ≤ c.toNat) && decide (c.toNat ≤ 0x200a)) ||
  (decide (0x2028 ≤ c.toNat) && decide (c.toNat ≤ 0x2029)) ||
  decide (c.toNat = 0x202f) || decide (c.toNat = 0x205f) || decide (c.toNat = 0x3000)

/-- Leading-space skipping of `scanInt` in scanf mode: spaces from the table
are consumed, but an encountered newline is the `unexpected newline` scan
error (`none`).  (A `\r` directly before the `\n` is consumed first, landing
in the same error.) -/
def skipLeadingSpace : List Char → Option (List Char)
  | [] => some []
  | c :: cs =>
    if c = '\n' then none
    else if fmtSpace c then skipLeadingSpace cs
    else some (c :: cs)

/-- Decimal value of a digit run. -/
def digitsToNat (ds : List Char) : Nat :=
  ds.foldl (fun acc c => acc * 10 + (c.toNat - '0'.toNat)) 0

/-- Smallest `int64` value, `strconv.ParseInt`'s lower range bound. -/
def intMin64 : Int := -9223372036854775808

/-- Largest `int64` value, `strconv.ParseInt`'s upper range bound. -/
def intMax64 : Int := 9223372036854775807

/-- Model of `fmt.Sscanf(s, "%d", &x)`: `none` iff the scan count is 0
(newline during space skipping, no digits, or 64-bit range error). -/
def parseGoInt (s : String) : Option Int :=
  match skipLeadingSpace s.data with
  | none => none
  | some cs =>
    let signed : Bool × List Char :=
      match cs with
      | '-' :: r => (true, r)
      | '+' :: r => (false, r)
      | r => (false, r)
    let ds := signed.2.takeWhile Char.isDigit
    if ds.isEmpty then none
    else
      let v : Int := if signed.1 then -(digitsToNat ds : Int) else (digitsToNat ds : Int)
      if v < intMin64 ∨ intMax64 < v then none else some v

/-! ## Comparison helpers (`compareAge`, `compareInt`, `compareInt64`) -/

/-- Model of `(v *QueryBuilderView) compareAge`.  Durations are `Int`
nanoseconds; Go's `int64` division `target*9/10` truncates toward zero, hence
`Int.tdiv`. -/
def compareAge (actual : Int) (op : String) (target : Int) : Bool :=
  if op = ">" then decide (actual > target)
  else if op = "<" then decide (actual < target)
  else if op = "=" then
    decide (actual ≥ Int.tdiv (target * 9) 10) && decide (actual ≤ Int.tdiv (target * 11) 10)
  else true

/-- Model of `(v *QueryBuilderView) compareInt`. -/
def compareInt (actual : Int) (op : String) (target : Int) : Bool :=
  if op = "=" then decide (actual = target)
  else if op = ">" then decide (actual > target)
  else if op = "<" then decide (actual < target)
  else true

/-- Model of `(v *QueryBuilderView) compareInt64` (identical body at `Int`). -/
def compareInt64 (actual : Int) (op : String) (target : Int) : Bool :=
  if op = "=" then decide (actual = target)
  else if op = ">" then decide (actual > target)
  else if op = "<" then decide (actual < target)
  else true

/-- Nanoseconds in `time.Minute`. -/
def minuteNs : Int := 60000000000

/-- Nanoseconds in `time.Hour`. -/
def hourNs : Int := 3600000000000

/-! ## `matchesFilter`

The Go function is a sequence of clause blocks with early returns
(`return false` on a failed comparison, `return true` when a non-empty value
does not parse).  Each block is one definition below; falling through to the
next block is a call of the next definition, an early return is a literal
result. -/

/-- Messages block of `matchesFilter` plus the final `return true`. -/
def matchesMessagesOn (q : QueryBuilderState) (st : Stream) : Bool :=
  if q.messagesOp ≠ "any" ∧ q.messagesValue ≠ "" then
    match parseGoInt q.messagesValue with
    | none => true
    | some v => compareInt64 (st.state.messages : Int) q.messagesOp v
  else true

/-- Consumer block of `matchesFilter`; on success falls through to the
messages block. -/
def matchesConsumerOn (q : QueryBuilderState) (st : Stream) : Bool :=
  if q.consumerOp ≠ "any" ∧ q.consumerValue ≠ "" then
    match parseGoInt q.consumerValue with
    | none => true
    | some v =>
      if compareInt st.consumers q.consumerOp v then matchesMessagesOn q st else false
  else matchesMessagesOn q st

/-- Age block of `matchesFilter`; `age := time.Since(stream.State.FirstTime)`
is `now - firstTime`; on success falls through to the consumer block. -/
def matchesAgeOn (q : QueryBuilderState) (now : Int) (st : Stream) : Bool :=
  if q.ageOp ≠ "any" ∧ q.ageValue ≠ "" then
    match parseGoInt q.ageValue with
    | none => true
    | some v =>
      let target := if q.ageUnit = "m" then v * minuteNs else v * hourNs
      if compareAge (now - st.state.firstTime) q.ageOp target then matchesConsumerOn q st
      else false
  else matchesConsumerOn q st

/-- Model of `(v *QueryBuilderView) matchesFilter`: name block, then age,
consumer and messages blocks. -/
def matchesFilter (q : QueryBuilderState) (now : Int) (st : Stream) : Bool :=
  if nameClauseOk q.namePattern st.name then matchesAgeOn q now st else false

/-- Model of `(v *QueryBuilderView) filterStreams`: the append loop keeping
the streams accepted by `matchesFilter`, in snapshot order. -/
def filterStreams (q : QueryBuilderState) (now : Int) : List Stream → List Stream
  | [] => []
  | st :: rest =>
    if matchesFilter q now st then st :: filterStreams q now rest
    else filterStreams q now rest

/-! ## `sortPreview`

`sortPreview` calls `sort.Slice(v.matchedStreams, less)`.  For slices of at
most 12 elements Go's `sort.Slice` (pdqsort since Go 1.19) runs plain
insertion sort (`pdqsort` dispatches to `insertionSort` whenever
`length <= maxInsertion = 12`); that algorithm is modelled exactly below.
The sorted prefix is kept reversed (`racc`, head = rightmost element) so that
the inner `for j := i; j > a && less(j, j-1); j--` swap loop is the
head-first walk `bubble`. -/

/-- Inner swap loop of insertion sort: the new element `x` moves past `y`
while `less x y`, landing on top of the first element it does not pass. -/
def bubble (L : α → α → Bool) (x : α) : List α → List α
  | [] => [x]
  | y :: ys => if L x y then y :: bubble L x ys else x :: y :: ys

/-- Outer loop of insertion sort over the reversed sorted prefix. -/
def sortSliceAux (L : α → α → Bool) : List α → List α → List α
  | racc, [] => racc
  | racc, x :: xs => sortSliceAux L (bubble L x racc) xs

/-- Model of `sort.Slice xs less` in its insertion-sort regime. -/
def sortSlice (L : α → α → Bool) (xs : List α) : List α :=
  (sortSliceAux L [] xs).reverse

/-- Column comparator of `sortPreview` (the `switch v.sortColumn` building
`less`): 0 = name (Go bytewise string `<`, modelled as code-point list
order), 1 = age (`FirstTime.Before`), 2 = messages, 3 = consumers; any other
column leaves `less` at its zero value `false`. -/
def streamLess (c : Nat) (x y : Stream) : Bool :=
  match c with
  | 0 => decide (x.name.data < y.name.data)
  | 1 => decide (x.state.firstTime < y.state.firstTime)
  | 2 => decide (x.state.messages < y.state.messages)
  | 3 => decide (x.consumers < y.consumers)
  | _ => false

/-- Model of `(v *QueryBuilderView) sortPreview`: early return on an empty
matched set, otherwise `sort.Slice` with the column comparator, negated when
`!v.sortAscending`. -/
def sortPreview (c : Nat) (asc : Bool) (xs : List Stream) : List Stream :=
  if xs.length = 0 then xs
  else sortSlice (fun i j => if asc then streamLess c i j else !(streamLess c i j)) xs

/-! ## Controller operations

The form-field closures installed by `buildUI` / `buildFormFields` assign the
typed text (or the chosen dropdown option) to the corresponding field and do
nothing else. -/

/-- Closure of the `"Name Pattern"` input field. -/
def setNamePattern (t : String) (s : QueryBuilderState) : QueryBuilderState :=
  { s with namePattern := t }

/-- Closure of the `"Age Operator"` dropdown. -/
def setAgeOp (t : String) (s : QueryBuilderState) : QueryBuilderState :=
  { s with ageOp := t }

/-- Closure of the `"Age Value"` input field. -/
def setAgeValue (t : String) (s : QueryBuilderState) : QueryBuilderState :=
  { s with ageValue := t }

/-- Closure of the `"Age Unit"` dropdown. -/
def setAgeUnit (t : String) (s : QueryBuilderState) : QueryBuilderState :=
  { s with ageUnit := t }

/-- Closure of the `"Consumer Op"` dropdown. -/
def setConsumerOp (t : String) (s : QueryBuilderState) : QueryBuilderState :=
  { s with consumerOp := t }

/-- Closure of the `"Consumer Value"` input field. -/
def setConsumerValue (t : String) (s : QueryBuilderState) : QueryBuilderState :=
  { s with consumerValue := t }

/-- Closure of the `"Messages Op"` dropdown. -/
def setMessagesOp (t : String) (s : QueryBuilderState) : QueryBuilderState :=
  { s with messagesOp := t }

/-- Closure of the `"Messages Value"` input field. -/
def setMessagesValue (t : String) (s : QueryBuilderState) : QueryBuilderState :=
  { s with messagesValue := t }

/-- Model of `(v *QueryBuilderView) previewMatches` on a successful
`ListStreams` call returning `snapshot`: replaces the matched set with the
filtered snapshot (table/status updates are rendering only). -/
def previewMatches (snapshot : List Stream) (now : Int) (s : QueryBuilderState) :
    QueryBuilderState :=
  { s with matchedStreams := filterStreams s now snapshot }

/-- Guard section of `(v *QueryBuilderView) deleteMatched`: the `ShowError`
message when the request is rejected, `none` when the confirmation modal is
shown.  The empty-set check runs before the read-only check. -/
def requestDelete (readOnly : Bool) (s : QueryBuilderState) : Option String :=
  if s.matchedStreams.length = 0 then
    some "No streams matched. Press 'Preview Matches' first."
  else if readOnly then some "Cannot delete in read-only mode"
  else none

/-- Guard section of `(v *QueryBuilderView) purgeMatched`, identical up to
the read-only message. -/
def requestPurge (readOnly : Bool) (s : QueryBuilderState) : Option String :=
  if s.matchedStreams.length = 0 then
    some "No streams matched. Press 'Preview Matches' first."
  else if readOnly then some "Cannot purge in read-only mode"
  else none

/-- Trace and tally of one bulk-executor run: the external calls made (stream
names, in call order) and the two counters. -/
structure BulkRun where
  calls : List String
  succeeded : Nat
  failed : Nat
deriving DecidableEq, Repr

/-- Loop body shared by `performBulkDelete` and `performBulkPurge`: one
external call per stream in order, incrementing `failCount` when the call
errors and `successCount` otherwise, never stopping early.  `failOp` is the
external collaborator: `failOp name = true` iff the call for `name` returns
an error. -/
def bulkRunAux (failOp : String → Bool) (acc : BulkRun) : List Stream → BulkRun
  | [] => acc
  | st :: rest =>
    if failOp st.name then
      bulkRunAux failOp ⟨acc.calls ++ [st.name], acc.succeeded, acc.failed + 1⟩ rest
    else
      bulkRunAux failOp ⟨acc.calls ++ [st.name], acc.succeeded + 1, acc.failed⟩ rest

/-- Model of `(v *QueryBuilderView) performBulkDelete` (loop and tally; the
result modal is rendering).  `deleteFails name` says whether
`client.DeleteStream(name)` returns an error. -/
def performBulkDelete (deleteFails : String → Bool) (matched : List Stream) : BulkRun :=
  bulkRunAux deleteFails ⟨[], 0, 0⟩ matched

/-- Model of `(v *QueryBuilderView) performBulkPurge` (loop and tally).
`purgeFails name` says whether `client.PurgeStream(name)` returns an
error. -/
def performBulkPurge (purgeFails : String → Bool) (matched : List Stream) : BulkRun :=
  bulkRunAux purgeFails ⟨[], 0, 0⟩ matched

/-- Outcome of one user-initiated bulk action: external calls made, report
(`succeeded`, `failed`) if the executor ran, and the final view state. -/
structure FlowResult where
  calls : List String
  report : Option (Nat × Nat)
  final : QueryBuilderState
deriving DecidableEq, Repr

/-- Full delete path `deleteMatched` followed (on a confirmed modal) by
`performBulkDelete`: a rejected request makes no external call and leaves the
state alone; otherwise the executor runs over the current matched set.  After
the run `performBulkDelete` only shows the result modal (whose close handler
navigates to the stream list): the view state is left unchanged, with no
re-preview. -/
def deleteFlow (readOnly : Bool) (deleteFails : String → Bool) (s : QueryBuilderState) :
    FlowResult :=
  match requestDelete readOnly s with
  | some _ => ⟨[], none, s⟩
  | none =>
    let r := performBulkDelete deleteFails s.matchedStreams
    ⟨r.calls, some (r.succeeded, r.failed), s⟩

/-- Full purge path `purgeMatched` followed (on a confirmed modal) by
`performBulkPurge`: as `deleteFlow`, except that `performBulkPurge` ends with
`v.previewMatches()`, re-filtering the post-mutation snapshot. -/
def purgeFlow (readOnly : Bool) (purgeFails : String → Bool)
    (postSnapshot : List Stream) (now : Int) (s : QueryBuilderState) : FlowResult :=
  match requestPurge readOnly s with
  | some _ => ⟨[], none, s⟩
  | none =>
    let r := performBulkPurge purgeFails s.matchedStreams
    ⟨r.calls, some (r.succeeded, r.failed), previewMatches postSnapshot now s⟩

/-! ## Preset store -/

/-- Saved filter preset, from `models.SavedFilter` (`internal/models/filter.go`). -/
structure SavedFilter where
  name : String
  namePattern : String
  ageOp : String
  ageValue : Int
  ageUnit : String
  consumerOp : String
  consumerValue : Int
  messagesOp : String
  messagesValue : Int
deriving DecidableEq, Repr

/-- Model of `(v *QueryBuilderView) saveFilterToFile` at the store level:
`existing` is the decoded `config.Filters` list read from `filters.yaml`
(file system and YAML round trip are the external collaborator); the function
rejects a duplicate name with the error the Go code formats, else appends the
new preset and writes the list back. -/
def saveFilterToFile (existing : List SavedFilter) (f : SavedFilter) :
    Except String (List SavedFilter) :=
  if existing.any (fun g => g.name == f.name) then
    Except.error ("filter '" ++ f.name ++ "' already exists")
  else Except.ok (existing ++ [f])

/-! ## Concrete fixtures used by witnesses and counterexamples -/

/-- Comparator induced by a sort key, the shape of every `streamLess` column. -/
def keyLess {α β : Type} [LinearOrder β] (k : α → β) (x y : α) : Bool :=
  decide (k x < k y)

/-- Tie at sort column `c` with the reference stream `z` (neither compares
below the other). -/
def sameKey (c : Nat) (z y : Stream) : Bool :=
  !(streamLess c z y) && !(streamLess c y z)

/-- Two streams sharing a name (a tie in sort column 0) but distinguishable
by their consumer counts. -/
def exS1 : Stream := ⟨"a", 1, ⟨10, 0⟩⟩

/-- See `exS1`. -/
def exS2 : Stream := ⟨"a", 2, ⟨20, 0⟩⟩

/-- Three distinct streams for the bulk-executor scenario. -/
def exT1 : Stream := ⟨"t1", 0, ⟨0, 0⟩⟩

/-- See `exT1`. -/
def exT2 : Stream := ⟨"t2", 0, ⟨0, 0⟩⟩

/-- See `exT1`. -/
def exT3 : Stream := ⟨"t3", 0, ⟨0, 0⟩⟩

/-- View state holding one previewed match (`exS1`). -/
def stateWithMatch : QueryBuilderState := { initialState with matchedStreams := [exS1] }

/-- Predicate with an unparseable age value and a parseable messages clause
`= 5`. -/
def cexFilterState : QueryBuilderState :=
  { initialState with ageOp := ">", ageValue := "x", messagesOp := "=", messagesValue := "5" }

/-- Stream with 7 messages, rejected by the clause `messages = 5`. -/
def cexMsgStream : Stream := ⟨"e", 0, ⟨7, 0⟩⟩

/-- Predicate with all three numeric comparators active and all three value
strings non-empty but unparseable. -/
def allBadState : QueryBuilderState :=
  { initialState with
      ageOp := ">"
      ageValue := "x"
      consumerOp := "<"
      consumerValue := "y"
      messagesOp := "="
      messagesValue := "z" }

/-- Predicate whose name pattern is `a.c`: no `*`, but a regex
metacharacter. -/
def dotPatternState : QueryBuilderState := { initialState with namePattern := "a.c" }

/-- Stream named `axc`: not literally equal to the pattern `a.c`. -/
def streamAxc : Stream := ⟨"axc", 0, ⟨0, 0⟩⟩

/-- Stream named exactly `a.c`. -/
def streamAdotc : Stream := ⟨"a.c", 0, ⟨0, 0⟩⟩

/-- Stored preset fixture. -/
def presetA : SavedFilter := ⟨"daily", "*", "any", 0, "h", "any", 0, "any", 0⟩

/-- Preset colliding with `presetA` on the name, different contents. -/
def presetB : SavedFilter := { presetA with namePattern := "order-*" }

/-! # Helper lemmas -/

/-- Closed form of the bulk-executor loop for any starting accumulator. -/
theorem bulkRunAux_spec (f : String → Bool) (l : List Stream) (acc : BulkRun) :
    bulkRunAux f acc l =
      ⟨acc.calls ++ l.map (fun st => st.name),
       acc.succeeded + l.countP (fun st => !(f st.name)),
       acc.failed + l.countP (fun st => f st.name)⟩ := by
  induction l generalizing acc with
  | nil => simp [bulkRunAux]
  | cons st rest ih =>
    by_cases h : f st.name = true <;>
      simp [bulkRunAux, h, ih, List.countP_cons] <;> omega

/-- Closed form of `performBulkDelete`. -/
theorem performBulkDelete_spec (f : String → Bool) (matched : List Stream) :
    performBulkDelete f matched =
      ⟨matched.map (fun st => st.name),
       matched.countP (fun st => !(f st.name)),
       matched.countP (fun st => f st.name)⟩ := by
  simp [performBulkDelete, bulkRunAux_spec]

/-- Closed form of `performBulkPurge`. -/
theorem performBulkPurge_spec (f : String → Bool) (matched : List Stream) :
    performBulkPurge f matched =
      ⟨matched.map (fun st => st.name),
       matched.countP (fun st => !(f st.name)),
       matched.countP (fun st => f st.name)⟩ := by
  simp [performBulkPurge, bulkRunAux_spec]

/-- Counting errors and non-errors over the matched set exhausts it. -/
theorem countP_not_add_countP (f : String → Bool) (l : List Stream) :
    l.countP (fun st => !(f st.name)) + l.countP (fun st => f st.name) = l.length := by
  induction l with
  | nil => simp
  | cons st rest ih =>
    by_cases h : f st.name = true <;> simp [List.countP_cons, h] <;> omega

/-- A token list of plain literals matches exactly the identical character
list. -/
theorem reMatch_lits (cs : List Char) : ∀ xs : List Char,
    (reMatch (cs.map GlobTok.lit) xs = true ↔ cs = xs) := by
  induction cs with
  | nil => intro xs; cases xs <;> simp [reMatch]
  | cons c cs ih =>
    intro xs
    cases xs with
    | nil => simp [reMatch]
    | cons x xs =>
      by_cases h : x = c <;> simp [reMatch, h, ih, eq_comm]
      exact fun hcx _ => h hcx.symm

/-- A pattern free of regex metacharacters tokenises to plain literals. -/
theorem globTokens_plain (p : String) (hp : plainPattern p = true) :
    globTokens p = p.data.map GlobTok.lit := by
  unfold globTokens
  apply List.map_congr_left
  intro c hc
  have hmeta := (List.all_eq_true.mp hp) c hc
  have hstar : c ≠ '*' := by
    intro h; subst h; simp [regexMetaChars] at hmeta
  have hdot : c ≠ '.' := by
    intro h; subst h; simp [regexMetaChars] at hmeta
  simp [hstar, hdot]

/-- String equality is equality of the underlying character lists. -/
theorem string_eq_iff_data (p s : String) : p = s ↔ p.data = s.data := by
  obtain ⟨dp⟩ := p
  obtain ⟨ds⟩ := s
  exact ⟨fun h => by cases h; rfl, fun h => congrArg String.mk h⟩

/-- The filtering loop is `List.filter`. -/
theorem filterStreams_eq_filter (q : QueryBuilderState) (now : Int) (l : List Stream) :
    filterStreams q now l = l.filter (matchesFilter q now) := by
  induction l with
  | nil => rfl
  | cons st rest ih =>
    by_cases h : matchesFilter q now st <;> simp [filterStreams, List.filter_cons, h, ih]

/-! ## Insertion-sort lemmas for `sortSlice`

Throughout, `keyLess k` is the ascending column comparator and
`fun u v => !(keyLess k u v)` is the comparator `sortPreview` uses when
descending. -/

/-- The new element passes every element it is compared with. -/
theorem bubble_pass (L : α → α → Bool) (x : α) :
    ∀ l : List α, (∀ y ∈ l, L x y = true) → bubble L x l = l ++ [x] := by
  intro l
  induction l with
  | nil => intro _; rfl
  | cons y ys ih =>
    intro h
    have hy : L x y = true := h y (by simp)
    simp [bubble, hy, ih fun z hz => h z (by simp [hz])]

/-- An element the new one does not pass shields everything behind it. -/
theorem bubble_append_single (L : α → α → Bool) (x y : α) :
    ∀ l : List α, L x y = false → bubble L x (l ++ [y]) = bubble L x l ++ [y] := by
  intro l
  induction l with
  | nil => intro h; simp [bubble, h]
  | cons z zs ih =>
    intro h
    by_cases hz : L x z = true <;> simp [bubble, hz, ih h]

/-- Inserting is a permutation with the new element on top. -/
theorem bubble_perm (L : α → α → Bool) (x : α) :
    ∀ l : List α, List.Perm (bubble L x l) (x :: l) := by
  intro l
  induction l with
  | nil => rfl
  | cons y ys ih =>
    by_cases hy : L x y = true
    · simp only [bubble, hy, if_true]
      exact (ih.cons y).trans (List.Perm.swap x y ys)
    · simp [bubble, hy]

/-- Members of the insertion result. -/
theorem mem_of_mem_bubble (L : α → α → Bool) (x : α) (l : List α) {z : α}
    (hz : z ∈ bubble L x l) : z = x ∨ z ∈ l := by
  have := (bubble_perm L x l).mem_iff.mp hz
  simpa using this

/-- Insertion with the ascending comparator keeps the reversed prefix
non-increasing in the key. -/
theorem bubble_pairwise {β : Type} [LinearOrder β] (k : α → β) (x : α) :
    ∀ l : List α, l.Pairwise (fun u v => k v ≤ k u) →
      (bubble (keyLess k) x l).Pairwise (fun u v => k v ≤ k u) := by
  intro l
  induction l with
  | nil => intro _; simp [bubble]
  | cons y ys ih =>
    intro h
    rw [List.pairwise_cons] at h
    obtain ⟨hy, hys⟩ := h
    by_cases hxy : keyLess k x y = true
    · have hlt : k x < k y := by simpa [keyLess] using hxy
      simp only [bubble, hxy, if_true]
      refine List.pairwise_cons.mpr ⟨?_, ih hys⟩
      intro z hz
      rcases mem_of_mem_bubble (keyLess k) x ys hz with rfl | hz'
      · exact le_of_lt hlt
      · exact hy z hz'
    · have hle : k y ≤ k x := by simpa [keyLess, not_lt] using hxy
      simp only [bubble, hxy, if_false, Bool.false_eq_true]
      refine List.pairwise_cons.mpr ⟨?_, List.pairwise_cons.mpr ⟨hy, hys⟩⟩
      intro z hz
      rcases List.mem_cons.mp hz with rfl | hz'
      · exact hle
      · exact le_trans (hy z hz') hle

/-- The outer loop keeps the reversed prefix non-increasing in the key. -/
theorem sortSliceAux_pairwise {β : Type} [LinearOrder β] (k : α → β) :
    ∀ (xs racc : List α), racc.Pairwise (fun u v => k v ≤ k u) →
      (sortSliceAux (keyLess k) racc xs).Pairwise (fun u v => k v ≤ k u) := by
  intro xs
  induction xs with
  | nil => intro racc h; exact h
  | cons x xs ih =>
    intro racc h
    exact ih (bubble (keyLess k) x racc) (bubble_pairwise k x racc h)

/-- The ascending sort is non-decreasing in the key. -/
theorem sortSlice_sorted {β : Type} [LinearOrder β] (k : α → β) (xs : List α) :
    (sortSlice (keyLess k) xs).Pairwise (fun u v => k u ≤ k v) := by
  rw [sortSlice, List.pairwise_reverse]
  exact sortSliceAux_pairwise k xs [] (by simp)

/-- The outer loop permutes the prefix and the remaining input. -/
theorem sortSliceAux_perm (L : α → α → Bool) :
    ∀ (xs racc : List α), List.Perm (sortSliceAux L racc xs) (racc ++ xs) := by
  intro xs
  induction xs with
  | nil => intro racc; simp [sortSliceAux]
  | cons x xs ih =>
    intro racc
    refine (ih (bubble L x racc)).trans ?_
    refine (List.Perm.append_right xs (bubble_perm L x racc)).trans ?_
    exact List.perm_middle.symm

/-- Sorting permutes the input. -/
theorem sortSlice_perm (L : α → α → Bool) (xs : List α) :
    List.Perm (sortSlice L xs) xs := by
  refine (List.reverse_perm _).trans ?_
  simpa using sortSliceAux_perm L xs []

/-- Running the loop over an already ascending-sorted remainder only reverses
it onto the prefix. -/
theorem sortSliceAux_sorted_id {β : Type} [LinearOrder β] (k : α → β) :
    ∀ (xs racc : List α),
      List.Pairwise (fun u v => k u ≤ k v) (racc.reverse ++ xs) →
      sortSliceAux (keyLess k) racc xs = xs.reverse ++ racc := by
  intro xs
  induction xs with
  | nil => intro racc _; simp [sortSliceAux]
  | cons x xs ih =>
    intro racc h
    have hb : bubble (keyLess k) x racc = x :: racc := by
      cases racc with
      | nil => rfl
      | cons y ys =>
        have hy : k y ≤ k x := by
          have hmem : y ∈ (y :: ys).reverse := by simp
          exact (List.pairwise_append.mp h).2.2 y hmem x (by simp)
        have hxy : keyLess k x y = false := by
          simp [keyLess, not_lt.mpr hy]
        simp [bubble, hxy]
    have h' : List.Pairwise (fun u v => k u ≤ k v) ((x :: racc).reverse ++ xs) := by
      simpa [List.append_assoc] using h
    simp only [sortSliceAux, hb]
    rw [ih (x :: racc) h']
    simp

/-- The ascending sort leaves an ascending-sorted list unchanged. -/
theorem sortSlice_of_sorted {β : Type} [LinearOrder β] (k : α → β) (xs : List α)
    (h : xs.Pairwise (fun u v => k u ≤ k v)) : sortSlice (keyLess k) xs = xs := by
  rw [sortSlice, sortSliceAux_sorted_id k xs [] (by simpa using h)]
  simp

/-- The ascending sort is idempotent. -/
theorem sortSlice_idem {β : Type} [LinearOrder β] (k : α → β) (xs : List α) :
    sortSlice (keyLess k) (sortSlice (keyLess k) xs) = sortSlice (keyLess k) xs :=
  sortSlice_of_sorted k _ (sortSlice_sorted k xs)

/-- One descending insertion into the reversed prefix mirrors the ascending
insertion. -/
theorem bubble_reverse {β : Type} [LinearOrder β] (k : α → β) (x : α) :
    ∀ a : List α, a.Pairwise (fun u v => k v ≤ k u) →
      bubble (fun u v => !(keyLess k u v)) x a.reverse
        = (bubble (keyLess k) x a).reverse := by
  intro a
  induction a with
  | nil => intro _; rfl
  | cons y ys ih =>
    intro h
    rw [List.pairwise_cons] at h
    obtain ⟨hy, hys⟩ := h
    by_cases hxy : keyLess k x y = true
    · have hM : (!(keyLess k x y)) = false := by simp [hxy]
      rw [List.reverse_cons, bubble_append_single _ x y _ hM, ih hys]
      simp [bubble, hxy]
    · have hyx : k y ≤ k x := by simpa [keyLess, not_lt] using hxy
      have hall : ∀ z ∈ ys.reverse ++ [y], (!(keyLess k x z)) = true := by
        intro z hz
        rcases List.mem_append.mp hz with hz' | hz'
        · have hzy : k z ≤ k y := hy z (List.mem_reverse.mp hz')
          simp [keyLess, not_lt.mpr (le_trans hzy hyx)]
        · have : z = y := by simpa using hz'
          subst this
          simp [keyLess, not_lt.mpr hyx]
      rw [List.reverse_cons, bubble_pass _ x _ hall]
      simp [bubble, hxy]

/-- The descending run over the reversed prefix mirrors the ascending run. -/
theorem sortSliceAux_reverse {β : Type} [LinearOrder β] (k : α → β) :
    ∀ (xs a : List α), a.Pairwise (fun u v => k v ≤ k u) →
      sortSliceAux (fun u v => !(keyLess k u v)) a.reverse xs
        = (sortSliceAux (keyLess k) a xs).reverse := by
  intro xs
  induction xs with
  | nil => intro a _; rfl
  | cons x xs ih =>
    intro a ha
    simp only [sortSliceAux]
    rw [bubble_reverse k x a ha]
    exact ih (bubble (keyLess k) x a) (bubble_pairwise k x a ha)

/-- The descending sort is exactly the reverse of the ascending sort. -/
theorem sortSlice_reverse {β : Type} [LinearOrder β] (k : α → β) (xs : List α) :
    sortSlice (fun u v => !(keyLess k u v)) xs = (sortSlice (keyLess k) xs).reverse := by
  have h := sortSliceAux_reverse k xs ([] : List α) (by simp)
  simp only [List.reverse_nil] at h
  rw [sortSlice, sortSlice, h]

/-- Inserting an element of a different key leaves the key's subsequence
alone. -/
theorem bubble_filter_ne {β : Type} [LinearOrder β] (k : α → β) (x : α) (v : β)
    (hne : k x ≠ v) :
    ∀ l : List α,
      (bubble (keyLess k) x l).filter (fun y => decide (k y = v))
        = l.filter (fun y => decide (k y = v)) := by
  intro l
  induction l with
  | nil => simp [bubble, hne]
  | cons y ys ih =>
    by_cases hxy : keyLess k x y = true
    · simp [bubble, hxy, List.filter_cons, ih]
    · simp [bubble, hxy, List.filter_cons, hne]

/-- Inserting an element of the key puts it in front of the key's
subsequence (it bubbles past every strictly greater element, all of a
different key). -/
theorem bubble_filter_eq {β : Type} [LinearOrder β] (k : α → β) (x : α) (v : β)
    (heq : k x = v) :
    ∀ l : List α,
      (bubble (keyLess k) x l).filter (fun y => decide (k y = v))
        = x :: l.filter (fun y => decide (k y = v)) := by
  intro l
  induction l with
  | nil => simp [bubble, heq]
  | cons y ys ih =>
    by_cases hxy : keyLess k x y = true
    · have hlt : k x < k y := by simpa [keyLess] using hxy
      have hy : k y ≠ v := by
        subst heq
        exact (ne_of_gt hlt)
      simp [bubble, hxy, List.filter_cons, hy, ih]
    · simp [bubble, hxy, List.filter_cons, heq]

/-- Key-subsequence form of the whole loop. -/
theorem sortSliceAux_filter {β : Type} [LinearOrder β] (k : α → β) (v : β) :
    ∀ (xs racc : List α),
      (sortSliceAux (keyLess k) racc xs).filter (fun y => decide (k y = v))
        = (xs.filter (fun y => decide (k y = v))).reverse
            ++ racc.filter (fun y => decide (k y = v)) := by
  intro xs
  induction xs with
  | nil => intro racc; simp [sortSliceAux]
  | cons x xs ih =>
    intro racc
    simp only [sortSliceAux]
    rw [ih (bubble (keyLess k) x racc)]
    by_cases hx : k x = v
    · rw [bubble_filter_eq k x v hx racc]
      simp [List.filter_cons, hx]
    · rw [bubble_filter_ne k x v hx racc]
      simp [List.filter_cons, hx]

/-- The ascending sort is stable: each key's subsequence is preserved. -/
theorem sortSlice_stable {β : Type} [LinearOrder β] (k : α → β) (v : β) (xs : List α) :
    (sortSlice (keyLess k) xs).filter (fun y => decide (k y = v))
      = xs.filter (fun y => decide (k y = v)) := by
  rw [sortSlice, List.filter_reverse, sortSliceAux_filter]
  simp

/-- Packaged sort facts for one column whose comparator is induced by a
key. -/
theorem sortPreview_generic {β : Type} [LinearOrder β] (k : Stream → β) (c : Nat)
    (hk : streamLess c = keyLess k) (xs : List Stream) (z : Stream) :
    sortPreview c false xs = (sortPreview c true xs).reverse ∧
    sortPreview c true (sortPreview c true xs) = sortPreview c true xs ∧
    (sortPreview c true xs).filter (sameKey c z) = xs.filter (sameKey c z) ∧
    List.Pairwise (fun u v => streamLess c v u = false) (sortPreview c true xs) ∧
    List.Perm (sortPreview c true xs) xs := by
  have hasc : ∀ ys : List Stream, sortPreview c true ys = sortSlice (keyLess k) ys := by
    intro ys
    rw [sortPreview]
    by_cases h : ys.length = 0
    · rw [if_pos h]
      have he : ys = [] := List.length_eq_zero.mp h
      subst he
      rfl
    · rw [if_neg h]
      have hcomp : (fun i j => if true then streamLess c i j else !(streamLess c i j))
          = keyLess k := by
        funext i j
        simp [hk]
      rw [hcomp]
  have hdesc : ∀ ys : List Stream,
      sortPreview c false ys = sortSlice (fun u v => !(keyLess k u v)) ys := by
    intro ys
    rw [sortPreview]
    by_cases h : ys.length = 0
    · rw [if_pos h]
      have he : ys = [] := List.length_eq_zero.mp h
      subst he
      rfl
    · rw [if_neg h]
      have hcomp : (fun i j => if false then streamLess c i j else !(streamLess c i j))
          = fun u v => !(keyLess k u v) := by
        funext i j
        simp [hk]
      rw [hcomp]
  have hsame : sameKey c z = fun y => decide (k y = k z) := by
    funext y
    simp only [sameKey, hk, keyLess]
    by_cases h1 : k z < k y
    · have hne : k y ≠ k z := fun he => absurd (he ▸ h1) (lt_irrefl _)
      simp [h1, hne]
    · by_cases h2 : k y < k z
      · have hne : k y ≠ k z := ne_of_lt h2
        simp [h1, h2, hne]
      · have heq : k y = k z := le_antisymm (not_lt.mp h1) (not_lt.mp h2)
        simp [h1, h2, heq]
  refine ⟨?_, ?_, ?_, ?_, ?_⟩
  · rw [hdesc, hasc]
    exact sortSlice_reverse k xs
  · rw [hasc, hasc]
    exact sortSlice_idem k xs
  · rw [hasc, hsame]
    exact sortSlice_stable k (k z) xs
  · rw [hasc]
    refine List.Pairwise.imp ?_ (sortSlice_sorted k xs)
    intro u v huv
    simp [hk, keyLess, not_lt.mpr huv]
  · rw [hasc]
    exact sortSlice_perm _ xs

/-! # Claim theorems -/

/-- C5.  The bulk executor (delete and purge alike) makes exactly one
external call per matched entity, in the set's order, never stops on a
failure, and reports `succeeded` = calls without error, `failed` = calls with
error, with `succeeded + failed` = size of the matched set; concretely, on
three entities where exactly the second call fails the report is
attempted 3 / succeeded 2 / failed 1. -/
theorem bulk_executor_report :
    (∀ (f : String → Bool) (matched : List Stream),
      (performBulkDelete f matched).calls = matched.map (fun st => st.name) ∧
      (performBulkPurge f matched).calls = matched.map (fun st => st.name) ∧
      (performBulkDelete f matched).succeeded = matched.countP (fun st => !(f st.name)) ∧
      (performBulkDelete f matched).failed = matched.countP (fun st => f st.name) ∧
      (performBulkPurge f matched).succeeded = matched.countP (fun st => !(f st.name)) ∧
      (performBulkPurge f matched).failed = matched.countP (fun st => f st.name) ∧
      (performBulkDelete f matched).succeeded + (performBulkDelete f matched).failed
        = matched.length ∧
      (performBulkPurge f matched).succeeded + (performBulkPurge f matched).failed
        = matched.length) ∧
    performBulkDelete (fun n => n == "t2") [exT1, exT2, exT3] = ⟨["t1", "t2", "t3"], 2, 1⟩ ∧
    performBulkPurge (fun n => n == "t2") [exT1, exT2, exT3] = ⟨["t1", "t2", "t3"], 2, 1⟩ := by
  refine ⟨fun f matched => ?_, by decide, by decide⟩
  simp [performBulkDelete_spec, performBulkPurge_spec, countP_not_add_countP]

/-- C3.  A bulk delete or purge requested with an empty matched set, or while
the read-only flag is set, is rejected with a user-visible error message, no
external call is made and the view state is unchanged. -/
theorem bulk_guard_rejects (ro : Bool) (f : String → Bool) (post : List Stream) (now : Int)
    (s : QueryBuilderState) (h : s.matchedStreams = [] ∨ ro = true) :
    (requestDelete ro s).isSome = true ∧ (requestPurge ro s).isSome = true ∧
    deleteFlow ro f s = ⟨[], none, s⟩ ∧ purgeFlow ro f post now s = ⟨[], none, s⟩ := by
  rcases h with h | h
  · simp [requestDelete, requestPurge, deleteFlow, purgeFlow, h]
  · subst h
    by_cases hm : s.matchedStreams.length = 0 <;>
      simp [requestDelete, requestPurge, deleteFlow, purgeFlow, hm]

/-- Witness for C3 at the initial state (empty matched set, not read-only). -/
theorem bulk_guard_rejects_witness :
    (requestDelete false initialState).isSome = true ∧
    (requestPurge false initialState).isSome = true ∧
    deleteFlow false (fun _ => false) initialState = ⟨[], none, initialState⟩ ∧
    purgeFlow false (fun _ => false) [] 0 initialState = ⟨[], none, initialState⟩ :=
  bulk_guard_rejects false (fun _ => false) [] 0 initialState (Or.inl rfl)

/-- C2 (amended).  Mutating a predicate field does not invalidate the current
matched set: every field setter leaves `matchedStreams` untouched, and a bulk
delete or purge requested right after an edit (with a non-empty stale matched
set and read-only off) is accepted and issues one external call per stale
entry. -/
theorem edit_does_not_invalidate (t : String) (f : String → Bool)
    (post : List Stream) (now : Int) (s : QueryBuilderState)
    (hne : s.matchedStreams ≠ []) :
    ((setNamePattern t s).matchedStreams = s.matchedStreams ∧
     (setAgeOp t s).matchedStreams = s.matchedStreams ∧
     (setAgeValue t s).matchedStreams = s.matchedStreams ∧
     (setAgeUnit t s).matchedStreams = s.matchedStreams ∧
     (setConsumerOp t s).matchedStreams = s.matchedStreams ∧
     (setConsumerValue t s).matchedStreams = s.matchedStreams ∧
     (setMessagesOp t s).matchedStreams = s.matchedStreams ∧
     (setMessagesValue t s).matchedStreams = s.matchedStreams) ∧
    (deleteFlow false f (setNamePattern t s)).calls
      = s.matchedStreams.map (fun st => st.name) ∧
    (purgeFlow false f post now (setNamePattern t s)).calls
      = s.matchedStreams.map (fun st => st.name) := by
  have hlen : s.matchedStreams.length ≠ 0 := by
    simpa [List.length_eq_zero] using hne
  refine ⟨⟨rfl, rfl, rfl, rfl, rfl, rfl, rfl, rfl⟩, ?_, ?_⟩ <;>
    simp [deleteFlow, purgeFlow, requestDelete, requestPurge, setNamePattern, hlen,
      performBulkDelete_spec, performBulkPurge_spec]

/-- Witness for C2 (amended): after editing the name pattern of a state with
one previewed match, the delete path still calls the external delete once. -/
theorem edit_does_not_invalidate_witness :
    ((setNamePattern "zzz" stateWithMatch).matchedStreams = stateWithMatch.matchedStreams ∧
     (setAgeOp "zzz" stateWithMatch).matchedStreams = stateWithMatch.matchedStreams ∧
     (setAgeValue "zzz" stateWithMatch).matchedStreams = stateWithMatch.matchedStreams ∧
     (setAgeUnit "zzz" stateWithMatch).matchedStreams = stateWithMatch.matchedStreams ∧
     (setConsumerOp "zzz" stateWithMatch).matchedStreams = stateWithMatch.matchedStreams ∧
     (setConsumerValue "zzz" stateWithMatch).matchedStreams = stateWithMatch.matchedStreams ∧
     (setMessagesOp "zzz" stateWithMatch).matchedStreams = stateWithMatch.matchedStreams ∧
     (setMessagesValue "zzz" stateWithMatch).matchedStreams = stateWithMatch.matchedStreams) ∧
    (deleteFlow false (fun _ => false) (setNamePattern "zzz" stateWithMatch)).calls
      = stateWithMatch.matchedStreams.map (fun st => st.name) ∧
    (purgeFlow false (fun _ => false) [] 0 (setNamePattern "zzz" stateWithMatch)).calls
      = stateWithMatch.matchedStreams.map (fun st => st.name) :=
  edit_does_not_invalidate "zzz" (fun _ => false) [] 0 stateWithMatch (by decide)

/-- Counterexample to C2 as stated: with one previewed match, editing the
name pattern and then requesting a bulk delete is not rejected — the external
delete for the stale entry `"a"` is issued. -/
theorem edit_then_delete_cex :
    deleteFlow false (fun _ => false) (setNamePattern "zzz" stateWithMatch)
      = ⟨["a"], some (1, 0), setNamePattern "zzz" stateWithMatch⟩ := by
  decide

/-- C6 (amended).  After a confirmed bulk purge the controller immediately
re-previews, so the displayed matched set is recomputed from the
post-mutation snapshot; after a confirmed bulk delete no re-preview happens —
the view state (including the stale matched set) is left unchanged. -/
theorem purge_repreviews_delete_does_not (ro : Bool) (f : String → Bool)
    (post : List Stream) (now : Int) (s : QueryBuilderState) :
    (requestPurge ro s = none →
       (purgeFlow ro f post now s).final = previewMatches post now s ∧
       (purgeFlow ro f post now s).final.matchedStreams = filterStreams s now post) ∧
    (requestDelete ro s = none → (deleteFlow ro f s).final = s) := by
  constructor
  · intro h
    simp [purgeFlow, h, previewMatches]
  · intro h
    simp [deleteFlow, h]

/-- Witness for C6 (amended) at a state with one match and an empty
post-mutation snapshot. -/
theorem purge_repreviews_delete_does_not_witness :
    ((purgeFlow false (fun _ => false) [] 0 stateWithMatch).final
        = previewMatches [] 0 stateWithMatch ∧
     (purgeFlow false (fun _ => false) [] 0 stateWithMatch).final.matchedStreams
        = filterStreams stateWithMatch 0 []) ∧
    (deleteFlow false (fun _ => false) stateWithMatch).final = stateWithMatch :=
  ⟨(purge_repreviews_delete_does_not false (fun _ => false) [] 0 stateWithMatch).1 (by decide),
   (purge_repreviews_delete_does_not false (fun _ => false) [] 0 stateWithMatch).2 (by decide)⟩

/-- Counterexample to C6 as stated: after a confirmed bulk delete whose
post-mutation snapshot is empty (the deleted stream is gone), the displayed
matched set still holds the deleted stream instead of the re-previewed empty
set. -/
theorem delete_no_repreview_cex :
    (deleteFlow false (fun _ => false) stateWithMatch).final.matchedStreams = [exS1] ∧
    filterStreams stateWithMatch 0 [] = [] := by
  decide

/-- C9.  Saving a preset whose name collides with a stored preset fails with
the formatted error and produces no new store; a save with a fresh name
appends the preset, leaving the existing entries untouched and growing the
count by one. -/
theorem save_preset_semantics (store : List SavedFilter) (f : SavedFilter) :
    ((∃ g ∈ store, g.name = f.name) →
        saveFilterToFile store f
          = Except.error ("filter '" ++ f.name ++ "' already exists")) ∧
    ((∀ g ∈ store, g.name ≠ f.name) →
        saveFilterToFile store f = Except.ok (store ++ [f]) ∧
        (store ++ [f]).take store.length = store ∧
        (store ++ [f]).length = store.length + 1) := by
  constructor
  · rintro ⟨g, hg, he⟩
    have hany : store.any (fun g => g.name == f.name) = true :=
      List.any_eq_true.mpr ⟨g, hg, by simp [he]⟩
    simp [saveFilterToFile, hany]
  · intro h
    have hany : store.any (fun g => g.name == f.name) = false := by
      simp only [List.any_eq_false]
      intro g hg
      simp [h g hg]
    simp [saveFilterToFile, hany]

/-- Witness for C9: a duplicate of `presetA`'s name is rejected, and a
fresh-named preset is appended. -/
theorem save_preset_semantics_witness :
    (saveFilterToFile [presetA] presetB
       = Except.error ("filter '" ++ presetB.name ++ "' already exists")) ∧
    (saveFilterToFile [] presetA = Except.ok ([] ++ [presetA]) ∧
      ([] ++ [presetA]).take (List.length ([] : List SavedFilter)) = [] ∧
      ([] ++ [presetA]).length = List.length ([] : List SavedFilter) + 1) :=
  ⟨(save_preset_semantics [presetA] presetB).1 ⟨presetA, by decide, by decide⟩,
   (save_preset_semantics [] presetA).2 (by simp)⟩

/-- C10.  A non-`any` comparator paired with an empty value string is skipped
entirely: the predicate evaluates exactly as if that comparator were `any`,
so the remaining clauses alone decide membership. -/
theorem empty_value_clause_skipped (q : QueryBuilderState) (now : Int) (st : Stream) :
    (q.ageValue = "" → matchesFilter q now st = matchesFilter (setAgeOp "any" q) now st) ∧
    (q.consumerValue = "" →
       matchesFilter q now st = matchesFilter (setConsumerOp "any" q) now st) ∧
    (q.messagesValue = "" →
       matchesFilter q now st = matchesFilter (setMessagesOp "any" q) now st) := by
  refine ⟨fun h => ?_, fun h => ?_, fun h => ?_⟩ <;>
    simp [matchesFilter, matchesAgeOn, matchesConsumerOn, matchesMessagesOn,
      setAgeOp, setConsumerOp, setMessagesOp, nameClauseOk, h]

/-- C7 (amended).  In the regime where `sort.Slice` is insertion sort
(matched sets of at most 12 entries), sorting orders the matched set by the
chosen column's natural ordering (string for name, first-message time for
age, numeric for the counts) and permutes it; the ascending sort is stable
(each key's subsequence is preserved) and idempotent; the descending sort is
exactly the reverse of the ascending sort — and is therefore anti-stable on
ties, so neither stability nor idempotence holds for the descending
direction. -/
theorem sortPreview_properties (c : Nat) (xs : List Stream) (z : Stream)
    (hc : c ≤ 3) (_hlen : xs.length ≤ 12) :
    sortPreview c false xs = (sortPreview c true xs).reverse ∧
    sortPreview c true (sortPreview c true xs) = sortPreview c true xs ∧
    (sortPreview c true xs).filter (sameKey c z) = xs.filter (sameKey c z) ∧
    List.Pairwise (fun u v => streamLess c v u = false) (sortPreview c true xs) ∧
    List.Perm (sortPreview c true xs) xs := by
  interval_cases c
  · exact sortPreview_generic (fun st => st.name.data) 0 rfl xs z
  · exact sortPreview_generic (fun st => st.state.firstTime) 1 rfl xs z
  · exact sortPreview_generic (fun st => st.state.messages) 2 rfl xs z
  · exact sortPreview_generic (fun st => st.consumers) 3 rfl xs z

/-- Witness for C7 (amended) on the messages column over a two-stream
set. -/
theorem sortPreview_properties_witness :
    sortPreview 2 false [exS1, exT1] = (sortPreview 2 true [exS1, exT1]).reverse ∧
    sortPreview 2 true (sortPreview 2 true [exS1, exT1]) = sortPreview 2 true [exS1, exT1] ∧
    (sortPreview 2 true [exS1, exT1]).filter (sameKey 2 exS1)
      = List.filter (sameKey 2 exS1) [exS1, exT1] ∧
    List.Pairwise (fun u v => streamLess 2 v u = false) (sortPreview 2 true [exS1, exT1]) ∧
    List.Perm (sortPreview 2 true [exS1, exT1]) [exS1, exT1] :=
  sortPreview_properties 2 [exS1, exT1] exS1 (by decide) (by decide)

/-- Counterexample to C7 as stated: `exS1` and `exS2` are tied on the name
column, and the descending name sort applied twice differs from applying it
once — so the descending sort is neither idempotent nor stable. -/
theorem sortPreview_unstable_cex :
    sortPreview 0 false (sortPreview 0 false [exS1, exS2])
      ≠ sortPreview 0 false [exS1, exS2] ∧
    streamLess 0 exS1 exS2 = false ∧ streamLess 0 exS2 exS1 = false := by
  decide

/-- C4 (amended).  The name clause is an anchored, case-sensitive,
whole-string match in which `*` becomes the regex `.*`; the remaining pattern
characters are handed to the regex engine unescaped, so regex metacharacters
keep their regex meaning (`.` matches any single character instead of
itself).  A pattern of exactly `*` or the empty string matches every entity;
a pattern free of regex metacharacters (hence containing no `*`) matches
exactly the entity whose name is literally the pattern. -/
theorem name_glob_regex_semantics (p s : String) (c : Char) :
    nameClauseOk "*" s = true ∧
    nameClauseOk "" s = true ∧
    (plainPattern p = true → p ≠ "" → (nameClauseOk p s = true ↔ p = s)) ∧
    nameGlobMatches "a.c" (String.mk ['a', c, 'c']) = true := by
  refine ⟨by simp [nameClauseOk], by simp [nameClauseOk], fun hp hne => ?_, ?_⟩
  · have hstar : p ≠ "*" := by
      intro h; subst h; simp [plainPattern, regexMetaChars] at hp
    rw [nameClauseOk, if_pos ⟨hstar, hne⟩, nameGlobMatches, globTokens_plain p hp,
      reMatch_lits, string_eq_iff_data]
  · show reMatch (globTokens "a.c") ['a', c, 'c'] = true
    have ht : globTokens "a.c" = [GlobTok.lit 'a', GlobTok.dot, GlobTok.lit 'c'] := by decide
    rw [ht]
    simp [reMatch]

/-- Witness for C4 (amended) at pattern `abc`, name `abc`, middle character
`x`. -/
theorem name_glob_regex_semantics_witness :
    nameClauseOk "*" "abc" = true ∧
    nameClauseOk "" "abc" = true ∧
    (nameClauseOk "abc" "abc" = true ↔ ("abc" : String) = "abc") ∧
    nameGlobMatches "a.c" (String.mk ['a', 'x', 'c']) = true := by
  have h := name_glob_regex_semantics "abc" "abc" 'x'
  exact ⟨h.1, h.2.1, h.2.2.1 (by decide) (by decide), h.2.2.2⟩

/-- Counterexample to C4 as stated: the pattern `a.c` contains no `*` and is
exactly the name of `streamAdotc`, yet the evaluator also matches `axc` —
non-`*` characters are not matched literally, so the pattern does not select
exactly the one entity with that name. -/
theorem name_glob_literal_cex :
    filterStreams dotPatternState 0 [streamAxc, streamAdotc] = [streamAxc, streamAdotc] ∧
    dotPatternState.namePattern = streamAdotc.name ∧
    dotPatternState.namePattern.data.contains '*' = false := by
  decide

/-- C8.  The evaluator is a pure function of predicate, snapshot and clock
instant: it is literally `List.filter` of the per-entity test, hence an
order-preserving subsequence of the snapshot containing exactly the matching
entities; and when the name pattern is `*` and every comparator is `any` the
matched set is the whole snapshot in snapshot order. -/
theorem evaluator_pure_filter (q : QueryBuilderState) (now : Int) (snapshot : List Stream) :
    filterStreams q now snapshot = snapshot.filter (matchesFilter q now) ∧
    (filterStreams q now snapshot).Sublist snapshot ∧
    (∀ st, st ∈ filterStreams q now snapshot ↔ st ∈ snapshot ∧ matchesFilter q now st = true) ∧
    (q.namePattern = "*" → q.ageOp = "any" → q.consumerOp = "any" → q.messagesOp = "any" →
       filterStreams q now snapshot = snapshot) := by
  have heq := filterStreams_eq_filter q now snapshot
  refine ⟨heq, ?_, ?_, ?_⟩
  · rw [heq]; exact List.filter_sublist snapshot
  · intro st; rw [heq]; exact List.mem_filter
  · intro h1 h2 h3 h4
    rw [heq]
    apply List.filter_eq_self.mpr
    intro st _
    simp [matchesFilter, nameClauseOk, matchesAgeOn, matchesConsumerOn, matchesMessagesOn,
      h1, h2, h3, h4]

/-- Witness for C8 at the initial (all-`any`) state over a two-stream
snapshot. -/
theorem evaluator_pure_filter_witness :
    filterStreams initialState 0 [exS1, exT1]
      = List.filter (matchesFilter initialState 0) [exS1, exT1] ∧
    (filterStreams initialState 0 [exS1, exT1]).Sublist [exS1, exT1] ∧
    (∀ st, st ∈ filterStreams initialState 0 [exS1, exT1]
       ↔ st ∈ [exS1, exT1] ∧ matchesFilter initialState 0 st = true) ∧
    filterStreams initialState 0 [exS1, exT1] = [exS1, exT1] := by
  have h := evaluator_pure_filter initialState 0 [exS1, exT1]
  exact ⟨h.1, h.2.1, h.2.2.1, h.2.2.2 rfl rfl rfl rfl⟩

/-- C1 (amended).  A non-empty unparseable value on an active clause makes
the whole evaluation short-circuit to a match for that entity: the clause's
block returns `true` for the entire predicate, so clauses ordered before it
(the fixed order is name, age, consumer, messages) still apply, every later
clause is skipped, and an unparseable value never rejects an entity (in
particular it never rejects all entities).  With an unparseable age value the
entity is matched exactly when the name clause matches. -/
theorem unparseable_value_short_circuits (q : QueryBuilderState) (now : Int) (st : Stream) :
    (q.ageOp ≠ "any" → q.ageValue ≠ "" → parseGoInt q.ageValue = none →
       matchesAgeOn q now st = true ∧
       matchesFilter q now st = nameClauseOk q.namePattern st.name) ∧
    (q.consumerOp ≠ "any" → q.consumerValue ≠ "" → parseGoInt q.consumerValue = none →
       matchesConsumerOn q st = true) ∧
    (q.messagesOp ≠ "any" → q.messagesValue ≠ "" → parseGoInt q.messagesValue = none →
       matchesMessagesOn q st = true) := by
  refine ⟨fun h1 h2 h3 => ⟨?_, ?_⟩, fun h1 h2 h3 => ?_, fun h1 h2 h3 => ?_⟩
  · simp [matchesAgeOn, h1, h2, h3]
  · by_cases hn : nameClauseOk q.namePattern st.name <;>
      simp [matchesFilter, matchesAgeOn, h1, h2, h3, hn]
  · simp [matchesConsumerOn, h1, h2, h3]
  · simp [matchesMessagesOn, h1, h2, h3]

/-- Witness for C1 (amended) at a state whose three values are `"x"`, `"y"`,
`"z"`. -/
theorem unparseable_value_short_circuits_witness :
    (matchesAgeOn allBadState 0 exS1 = true ∧
     matchesFilter allBadState 0 exS1 = nameClauseOk allBadState.namePattern exS1.name) ∧
    matchesConsumerOn allBadState exS1 = true ∧
    matchesMessagesOn allBadState exS1 = true := by
  have h := unparseable_value_short_circuits allBadState 0 exS1
  exact ⟨h.1 (by decide) (by decide) (by decide),
         h.2.1 (by decide) (by decide) (by decide),
         h.2.2 (by decide) (by decide) (by decide)⟩

/-- Counterexample to C1 as stated: with an unparseable age value, an entity
whose (parseable) messages clause `= 5` fails is nevertheless in the matched
set — the unparseable clause did not merely match fail-open while the other
clauses still applied, it suppressed the later messages clause. -/
theorem unparseable_value_clause_local_cex :
    filterStreams cexFilterState 0 [cexMsgStream] = [cexMsgStream] ∧
    parseGoInt cexFilterState.messagesValue = some 5 ∧
    compareInt64 ((cexMsgStream.state.messages : Nat) : Int)
      cexFilterState.messagesOp 5 = false := by
  decide

/-- Witness for C10 at a state whose three value strings are all empty but
whose comparators are not `any`. -/
theorem empty_value_clause_skipped_witness :
    (matchesFilter { initialState with ageOp := ">", consumerOp := "<", messagesOp := "=" } 0 exS1
       = matchesFilter (setAgeOp "any"
           { initialState with ageOp := ">", consumerOp := "<", messagesOp := "=" }) 0 exS1) ∧
    (matchesFilter { initialState with ageOp := ">", consumerOp := "<", messagesOp := "=" } 0 exS1
       = matchesFilter (setConsumerOp "any"
           { initialState with ageOp := ">", consumerOp := "<", messagesOp := "=" }) 0 exS1) ∧
    (matchesFilter { initialState with ageOp := ">", consumerOp := "<", messagesOp := "=" } 0 exS1
       = matchesFilter (setMessagesOp "any"
           { initialState with ageOp := ">", consumerOp := "<", messagesOp := "=" }) 0 exS1) := by
  have h := empty_value_clause_skipped
    { initialState with ageOp := ">", consumerOp := "<", messagesOp := "=" } 0 exS1
  exact ⟨h.1 rfl, h.2.1 rfl, h.2.2 rfl⟩

end N2S
